import Mathlib

/-!
Verification of the SPMD (Single-Program-Multiple-Data) extension of the Go
type checker: the qualified type model (`SPMDType`), the assignability and
identity predicates, capacity validation, expression classification, and the
control-flow legality analyzer for `go for` parallel regions.

Definitions are shallow embeddings of the Go sources under
`src/cmd/compile/internal/types2/` (files `spmd.go`, `check_ext_spmd.go`,
`stmt_ext_spmd.go`, `expr_ext_spmd.go`, `typexpr_ext_spmd.go`,
`predicates_ext_spmd.go`) and the pointer-validation file.
-/

namespace GoSpmd

/-- Basic (unqualified scalar) Go type kinds, as distinguished by the size
computations in `getTypeSize` / `calculateTypeSize`. -/
inductive BasicKind
  | bool
  | int8
  | int16
  | int32
  | int64
  | uint8
  | uint16
  | uint32
  | uint64
  | int
  | uint
  | float32
  | float64
  | uintptr
  deriving DecidableEq, Repr

/-- SPMD qualifier, mirroring `SPMDQualifier` in spmd.go. -/
inductive SPMDQualifier
  | uniform
  | varying
  deriving DecidableEq, Repr

/-- Go types as seen by the SPMD checker.  `spmd q c e` mirrors the struct
`SPMDType{qualifier: q, constraint: c, elem: e}` of spmd.go: the constraint is
-1 for no constraint, 0 for universal, and positive for a numeric constraint. -/
inductive GoType
  | basic (k : BasicKind)
  | pointer (base : GoType)
  | array (len : Int) (elem : GoType)
  | slice (elem : GoType)
  | mapT (key elem : GoType)
  | chan (elem : GoType)
  | spmd (qualifier : SPMDQualifier) (constraint : Int) (elem : GoType)
  deriving DecidableEq, Repr

/-- Mirrors `NewUniform` of spmd.go. -/
def NewUniform (elem : GoType) : GoType := .spmd .uniform (-1) elem

/-- Mirrors `NewVarying` of spmd.go. -/
def NewVarying (elem : GoType) : GoType := .spmd .varying (-1) elem

/-- Mirrors `NewVaryingConstrained` of spmd.go. -/
def NewVaryingConstrained (elem : GoType) (constraint : Int) : GoType :=
  .spmd .varying constraint elem

/-- Mirrors `IsSPMDType` of spmd.go: the dynamic type test `t.(*SPMDType)`. -/
def isSPMDType : GoType → Bool
  | .spmd _ _ _ => true
  | _ => false

/-- Mirrors `IsUniformType` of spmd.go. -/
def isUniformType : GoType → Bool
  | .spmd .uniform _ _ => true
  | _ => false

/-- Mirrors `IsVaryingType` of spmd.go (and `isVaryingType` of expr_ext_spmd.go). -/
def isVaryingType : GoType → Bool
  | .spmd .varying _ _ => true
  | _ => false

/-- Mirrors `UnderlyingType` of spmd.go: unwraps one SPMD qualifier level. -/
def UnderlyingType : GoType → GoType
  | .spmd _ _ e => e
  | t => t

/-- Structural type identity.  On a pair of SPMD types this mirrors
`handleSPMDTypeIdentical` of predicates_ext_spmd.go (same qualifier, same
constraint, identical element types; an SPMD type is never identical to a
non-SPMD type); on the remaining constructors it is the ordinary structural
identity of the host checker. -/
def Identical : GoType → GoType → Bool
  | .basic k1, .basic k2 => k1 == k2
  | .pointer b1, .pointer b2 => Identical b1 b2
  | .array l1 e1, .array l2 e2 => l1 == l2 && Identical e1 e2
  | .slice e1, .slice e2 => Identical e1 e2
  | .mapT k1 v1, .mapT k2 v2 => Identical k1 k2 && Identical v1 v2
  | .chan e1, .chan e2 => Identical e1 e2
  | .spmd q1 c1 e1, .spmd q2 c2 e2 => q1 == q2 && c1 == c2 && Identical e1 e2
  | _, _ => false

/-- Mirrors `CanAssignSPMD` of spmd.go: the SPMD assignability predicate.
Neither side SPMD falls back to `Identical`; otherwise the underlying
(element) types must be identical, varying cannot narrow into uniform, a
plain Go source is treated as uniform, and an SPMD source assigns into a
plain Go target only when uniform. -/
def CanAssignSPMD (dst src : GoType) : Bool :=
  let dstIsSPMD := isSPMDType dst
  let srcIsSPMD := isSPMDType src
  if !dstIsSPMD && !srcIsSPMD then
    Identical dst src
  else
    let dstUnderlying := UnderlyingType dst
    let srcUnderlying := UnderlyingType src
    if !Identical dstUnderlying srcUnderlying then
      false
    else if dstIsSPMD && srcIsSPMD then
      if isUniformType dst && isVaryingType src then false else true
    else if dstIsSPMD && !srcIsSPMD then
      isUniformType dst || isVaryingType dst
    else if !dstIsSPMD && srcIsSPMD then
      isUniformType src
    else
      false

/-- Mirrors `IsConstrained` of spmd.go on an SPMD constraint value. -/
def constraintIsConstrained (c : Int) : Bool := c ≥ 0

/-- Mirrors `getTypeSize` of check_ext_spmd.go (byte size of a type; identical
to `calculateTypeSize` of typexpr_ext_spmd.go on this type universe). -/
def getTypeSize : GoType → Int
  | .basic k =>
    match k with
    | .bool | .uint8 | .int8 => 1
    | .uint16 | .int16 => 2
    | .uint32 | .int32 | .float32 => 4
    | .uint64 | .int64 | .float64 => 8
    | .uintptr => 8
    | _ => 8
  | .array len elem => getTypeSize elem * len
  | .slice _ => 24
  | .pointer _ => 8
  | _ => 8

/-- SIMD128 register capacity in bytes (`simd128CapacityBytes`). -/
def simd128CapacityBytes : Int := 16

/-- Absolute constrained-varying capacity ceiling in bytes
(`constrainedVaryingCapacityBytes` / `maxConstrainedCapacity`). -/
def maxConstrainedCapacity : Int := 64

/-- Default lane count used by capacity calculations (`defaultLaneCount`). -/
def defaultLaneCount : Int := 4

/-- Mirrors `calculateVaryingTypeCapacity` of check_ext_spmd.go: for a
constrained varying type the capacity is elementSize x constraint (with the
universal constraint 0 falling back to the default lane count); for an
unconstrained varying type it is elementSize x defaultLaneCount. -/
def calculateVaryingTypeCapacity (constraint : Int) (elem : GoType) : Int :=
  let elementSize := getTypeSize elem
  if constraintIsConstrained constraint then
    if constraint = 0 then elementSize * defaultLaneCount
    else elementSize * constraint
  else
    elementSize * defaultLaneCount

/-- Diagnostics emitted by the capacity checks. -/
inductive CapDiag
  | paramCapacityExceeded
  deriving DecidableEq, Repr

/-- Mirrors the per-parameter loop of `checkSPMDFunctionCapacity` of
check_ext_spmd.go: the first varying parameter whose capacity exceeds the
16-byte per-parameter limit yields the diagnostic; there is no whole-function
limit. -/
def checkSPMDFunctionCapacity : List GoType → Option CapDiag
  | [] => none
  | t :: rest =>
    match t with
    | .spmd .varying c e =>
      if calculateVaryingTypeCapacity c e > simd128CapacityBytes then
        some .paramCapacityExceeded
      else checkSPMDFunctionCapacity rest
    | _ => checkSPMDFunctionCapacity rest

/-- Diagnostics emitted while processing a `lanes.Varying[T, N]` type
expression. -/
inductive VaryingTypeDiag
  | constraintMustBeNonNegative
  | constrainedCapacityExceeded
  deriving DecidableEq, Repr

/-- Mirrors the constraint-argument handling of `processLanesVaryingType` of
typexpr_ext_spmd.go (lines 95-143), after the constant has been evaluated to
the integer `val`: 0 means universal, negative values are rejected, and a
positive constraint is rejected when constraint x elementSize exceeds the
64-byte constrained ceiling; on success the resulting SPMD type is built with
`NewVaryingConstrained`. -/
def processLanesVaryingType (elem : GoType) (arg : Option Int) :
    Except VaryingTypeDiag GoType :=
  match arg with
  | none => .ok (NewVaryingConstrained elem (-1))
  | some val =>
    let constraintResult : Except VaryingTypeDiag Int :=
      if val = 0 then .ok 0
      else if val < 1 then .error .constraintMustBeNonNegative
      else .ok val
    match constraintResult with
    | .error d => .error d
    | .ok constraint =>
      if constraint > 0 ∧ constraint * getTypeSize elem > maxConstrainedCapacity then
        .error .constrainedCapacityExceeded
      else
        .ok (NewVaryingConstrained elem constraint)

/-- Binary operators distinguished by the SPMD expression classifier. -/
inductive Operator
  | add | sub | mul | div | rem
  | andB | orB | xor | andNot
  | shl | shr
  | eql | neq | lss | leq | gtr | geq
  deriving DecidableEq, Repr

/-- Mirrors `isArithmetic` of expr_ext_spmd.go: arithmetic, bitwise and shift
operators. -/
def isArithmetic : Operator → Bool
  | .add | .sub | .mul | .div | .rem => true
  | .andB | .orB | .xor | .andNot => true
  | .shl | .shr => true
  | _ => false

/-- The element of an SPMD type, as read by `spmdType.elem` in
expr_ext_spmd.go (`none` when the operand type is not an SPMD type). -/
def spmdElem : GoType → Option GoType
  | .spmd _ _ e => some e
  | _ => none

/-- Mirrors `handleSPMDComparison` of expr_ext_spmd.go on the two operand
types: `none` when neither operand is varying (regular comparison logic
applies), otherwise the result type is varying bool. -/
def handleSPMDComparison (xty yty : GoType) : Option GoType :=
  let xVarying := isVaryingType xty
  let yVarying := isVaryingType yty
  if !xVarying && !yVarying then none
  else some (NewVarying (.basic .bool))

/-- Mirrors `handleSPMDBinaryExpr` of expr_ext_spmd.go on the two operand
types: `none` when neither operand is varying or the operator is not
arithmetic; otherwise the result is varying over the element type of the
first varying operand (falling back to the uniform operand's own type). -/
def handleSPMDBinaryExpr (xty yty : GoType) (op : Operator) : Option GoType :=
  let xVarying := isVaryingType xty
  let yVarying := isVaryingType yty
  if !xVarying && !yVarying then none
  else if isArithmetic op then
    let elemType : Option GoType := if xVarying then spmdElem xty else none
    let elemType : Option GoType :=
      if yVarying && elemType.isNone then spmdElem yty else elemType
    let elemType : Option GoType :=
      match elemType with
      | none => some (if xVarying then yty else xty)
      | some t => some t
    match elemType with
    | some t => some (NewVarying t)
    | none => none
  else none

/-- Mirrors the iteration-variable typing of `spmdRangeStmt` in
stmt_ext_spmd.go (lines 244-253): in the short-declaration form the key
variable receives type `NewVarying(Typ[Int])` and the value variable receives
`NewVarying(expr.typ)` where `expr.typ` is the checker's type for the ranged
expression. -/
def spmdRangeIterVarTypes (exprTy : GoType) (hasKey hasValue : Bool) :
    Option GoType × Option GoType :=
  (if hasKey then some (NewVarying (.basic .int)) else none,
   if hasValue then some (NewVarying exprTy) else none)

/-- Syntax expressions as inspected by the pointer validations, each node
carrying the type the checker computed for it (the `operand.typ` the Go code
reads back via `check.expr`). -/
inductive SynExpr
  | name (ty : GoType)
  | index (base idx : SynExpr) (ty : GoType)
  | oper (op : Operator) (l r : SynExpr) (ty : GoType)
  | lit (ty : GoType)
  deriving DecidableEq, Repr

/-- The checker-computed type of a syntax expression. -/
def SynExpr.ty : SynExpr → GoType
  | .name t => t
  | .index _ _ t => t
  | .oper _ _ _ t => t
  | .lit t => t

/-- Messages produced by `validateSPMDAddressOperation`. -/
inductive AddrMsg
  | cannotTakeAddressOfVaryingVariable
  | potentialOutOfBoundsVaryingPointer
  deriving DecidableEq, Repr

/-- The `(handled, valid, errorMsg)` result triple of the pointer
validations. -/
structure AddrResult where
  handled : Bool
  valid : Bool
  msg : Option AddrMsg
  deriving DecidableEq, Repr

/-- Mirrors `validateSPMDAddressOperation` of the pointer-validation file:
taking the address of a varying-typed operand that is a direct name is
rejected; afterwards, independently, an index expression whose index is a
multiplication with a varying operand is rejected as a potential
out-of-bounds varying-pointer access; anything else is not handled (no
diagnostic). -/
def validateSPMDAddressOperation (e : SynExpr) : AddrResult :=
  let indexCheck : AddrResult :=
    match e with
    | .index _ idx _ =>
      match idx with
      | .oper .mul l r _ =>
        if isVaryingType l.ty || isVaryingType r.ty then
          ⟨true, false, some .potentialOutOfBoundsVaryingPointer⟩
        else ⟨false, false, none⟩
      | _ => ⟨false, false, none⟩
    | _ => ⟨false, false, none⟩
  if isVaryingType e.ty then
    match e with
    | .name _ => ⟨true, false, some .cannotTakeAddressOfVaryingVariable⟩
    | _ => indexCheck
  else indexCheck

/-- Mirrors `SPMDControlFlowInfo` of stmt_ext_spmd.go (the fields the
legality checks read: nesting depth of varying conditionals and the
mask-altered flag). -/
structure SPMDControlFlowInfo where
  varyingDepth : Int
  maskAltered : Bool
  deriving DecidableEq, Repr

/-- The two diagnostic variants of the break/return legality checks
(`InvalidSPMDBreak` / `InvalidSPMDReturn` carry one of two messages). -/
inductive BranchDiagVariant
  | underVaryingCondition
  | afterMaskAlteration
  deriving DecidableEq, Repr

/-- Mirrors the break case of `validateSPMDBranch` of stmt_ext_spmd.go: a
break is rejected when the varying depth is positive or the mask has been
altered, with the mask-alteration message taking precedence. -/
def validateSPMDBranchBreak (info : SPMDControlFlowInfo) : Option BranchDiagVariant :=
  if info.varyingDepth > 0 || info.maskAltered then
    if info.maskAltered then some .afterMaskAlteration
    else some .underVaryingCondition
  else none

/-- Mirrors `validateSPMDReturn` of stmt_ext_spmd.go: same condition and
message precedence as for break. -/
def validateSPMDReturn (info : SPMDControlFlowInfo) : Option BranchDiagVariant :=
  if info.varyingDepth > 0 || info.maskAltered then
    if info.maskAltered then some .afterMaskAlteration
    else some .underVaryingCondition
  else none

/-- Diagnostics the statement walker can emit. -/
inductive StmtDiag
  | invalidSPMDGoto
  | invalidSPMDSelect
  | invalidNestedSPMDFor
  | invalidSPMDBreak (v : BranchDiagVariant)
  | invalidSPMDReturn (v : BranchDiagVariant)
  | misplacedBreak
  | misplacedContinue
  deriving DecidableEq, Repr

/-- The statement-context flags threaded by the checker (`stmtContext`):
`inSPMDFor` marks the body of a `go for`, `breakOk`/`continueOk` are the
ordinary break/continue permissions. -/
structure StmtCtxt where
  inSPMDFor : Bool
  breakOk : Bool
  continueOk : Bool
  deriving DecidableEq, Repr

/-- Statements of the fragment walked by `handleSPMDStatement` /
`spmdForStmt` / `spmdIfStmt` of stmt_ext_spmd.go.  Statement lists are
represented as right-nested `seq` chains. -/
inductive GoStmt
  | skip
  | brk
  | cont
  | ret
  | gotoStmt
  | selectStmt
  | ifStmt (condVarying : Bool) (thenBody elseBody : GoStmt)
  | goForStmt (body : GoStmt)
  | forStmt (body : GoStmt)
  | seq (s1 s2 : GoStmt)
  deriving DecidableEq, Repr

/-- One step of the SPMD statement analysis: mirrors `handleSPMDStatement` of
stmt_ext_spmd.go together with the pieces of the regular checker it defers to
(`return false` paths), threading the `globalSPMDInfo` state and collecting
diagnostics in source order.
A `go for` met in SPMD context is rejected as nested and its body is not
walked (`spmdForStmt` returns after the error); met outside, it opens a fresh
region with depth 0 and mask unaltered, restoring the saved state on exit.
A varying `if` increments the depth around its branches and clears `breakOk`
when the depth is positive or the mask altered.  A `continue` in SPMD context
sets the mask-altered flag when the depth is positive and is then handled by
the regular rules; a `break` with `breakOk` set is left to the regular rules,
otherwise `validateSPMDBranchBreak` decides it. -/
def checkStmt (ctxt : StmtCtxt) (info : SPMDControlFlowInfo) :
    GoStmt → SPMDControlFlowInfo × List StmtDiag
  | .skip => (info, [])
  | .brk =>
    if ctxt.inSPMDFor then
      if ctxt.breakOk then (info, [])
      else
        match validateSPMDBranchBreak info with
        | some v => (info, [.invalidSPMDBreak v])
        | none => (info, [])
    else (info, if ctxt.breakOk then [] else [.misplacedBreak])
  | .cont =>
    if ctxt.inSPMDFor then
      let info1 := if info.varyingDepth > 0 then { info with maskAltered := true } else info
      (info1, if ctxt.continueOk then [] else [.misplacedContinue])
    else (info, if ctxt.continueOk then [] else [.misplacedContinue])
  | .ret =>
    if ctxt.inSPMDFor then
      match validateSPMDReturn info with
      | some v => (info, [.invalidSPMDReturn v])
      | none => (info, [])
    else (info, [])
  | .gotoStmt =>
    if ctxt.inSPMDFor then (info, [.invalidSPMDGoto]) else (info, [])
  | .selectStmt =>
    if ctxt.inSPMDFor then (info, [.invalidSPMDSelect]) else (info, [])
  | .ifStmt condVarying thenBody elseBody =>
    if ctxt.inSPMDFor then
      let info1 := if condVarying then { info with varyingDepth := info.varyingDepth + 1 } else info
      let inner :=
        if info1.varyingDepth > 0 || info1.maskAltered then { ctxt with breakOk := false }
        else ctxt
      let r1 := checkStmt inner info1 thenBody
      let r2 := checkStmt inner r1.1 elseBody
      let info3 :=
        if condVarying then { r2.1 with varyingDepth := r2.1.varyingDepth - 1 } else r2.1
      (info3, r1.2 ++ r2.2)
    else
      let r1 := checkStmt ctxt info thenBody
      let r2 := checkStmt ctxt r1.1 elseBody
      (r2.1, r1.2 ++ r2.2)
  | .goForStmt body =>
    if ctxt.inSPMDFor then (info, [.invalidNestedSPMDFor])
    else
      let inner : StmtCtxt := { inSPMDFor := true, breakOk := ctxt.breakOk, continueOk := true }
      let r := checkStmt inner { varyingDepth := 0, maskAltered := false } body
      (info, r.2)
  | .forStmt body =>
    let inner : StmtCtxt := { ctxt with breakOk := true, continueOk := true }
    checkStmt inner info body
  | .seq s1 s2 =>
    let r1 := checkStmt ctxt info s1
    let r2 := checkStmt ctxt r1.1 s2
    (r2.1, r1.2 ++ r2.2)

/-- Mirrors the body test of `hasGoForInSPMDFunction` /
`checkNoGoForInSPMDFunction` of stmt_ext_spmd.go: `syntax.Inspect` finds a
`ForStmt` with `IsSpmd` anywhere in the statement tree. -/
def containsGoFor : GoStmt → Bool
  | .goForStmt _ => true
  | .ifStmt _ t e => containsGoFor t || containsGoFor e
  | .forStmt b => containsGoFor b
  | .seq s1 s2 => containsGoFor s1 || containsGoFor s2
  | _ => false

/-- Mirrors `calculateGoForCapacity` of check_ext_spmd.go, which returns the
placeholder value 0 for every loop body. -/
def calculateGoForCapacity (_body : GoStmt) : Int := 0

/-- The region-level capacity diagnostic (`InvalidSPMDFor`). -/
inductive GoForCapDiag
  | simdRegisterCapacityExceeded
  deriving DecidableEq, Repr

/-- Mirrors `checkGoForCapacity` of check_ext_spmd.go: the diagnostic is
emitted when the computed body capacity exceeds the SIMD128 limit. -/
def checkGoForCapacity (body : GoStmt) : Option GoForCapDiag :=
  if calculateGoForCapacity body > simd128CapacityBytes then
    some .simdRegisterCapacityExceeded
  else none

/-- A function declaration as consumed by `validateSPMDFunctionSignature` of
check_ext_spmd.go: the name, the enclosing package name, the parameter and
result types of the signature, and the body (absent for declarations without
a body). -/
structure FuncDeclModel where
  name : String
  pkgName : String
  paramTypes : List GoType
  resultTypes : List GoType
  body : Option GoStmt
  deriving Repr

/-- Mirrors the export test of check_ext_spmd.go: the name is nonempty and
its first byte lies between ASCII A and Z. -/
def isCapitalizedName (name : String) : Bool :=
  match name.toList with
  | [] => false
  | c :: _ => 'A' ≤ c && c ≤ 'Z'

/-- Mirrors `hasSPMDParameters` of stmt_ext_spmd.go: some parameter type is a
varying SPMD type. -/
def hasSPMDParameters (paramTypes : List GoType) : Bool :=
  paramTypes.any isVaryingType

/-- Mirrors `hasGoForInSPMDFunction` of stmt_ext_spmd.go lifted over an
optional body. -/
def hasGoForInSPMDFunction : Option GoStmt → Bool
  | none => false
  | some b => containsGoFor b

/-- Diagnostic messages of `validateSPMDFunctionSignature` (all carried by
error code `InvalidSPMDFunction`). -/
inductive FuncDiag
  | publicVaryingParams
  | publicVaryingReturn
  | varyingFunctionContainsGoFor
  deriving DecidableEq, Repr

/-- Mirrors `validateSPMDFunctionSignature` of check_ext_spmd.go: Rule 1
rejects an exported function with a varying parameter outside the lanes and
reduce packages; Rule 2 (only reached without varying parameters) rejects an
exported function with a varying result outside those packages and returns
early; Rule 3 rejects a varying-parameter function whose body contains a
`go for`. -/
def validateSPMDFunctionSignature (fd : FuncDeclModel) : List FuncDiag :=
  let hasVaryingParams := hasSPMDParameters fd.paramTypes
  let exempt := fd.pkgName == "lanes" || fd.pkgName == "reduce"
  let diags1 : List FuncDiag :=
    if hasVaryingParams && isCapitalizedName fd.name && !exempt then
      [.publicVaryingParams]
    else []
  if !hasVaryingParams && isCapitalizedName fd.name
      && fd.resultTypes.any isVaryingType && !exempt then
    diags1 ++ [.publicVaryingReturn]
  else
    diags1 ++
      (if hasVaryingParams && hasGoForInSPMDFunction fd.body then
        [.varyingFunctionContainsGoFor]
      else [])

/-- A syntactic context made only of non-parallel constructs (conditionals,
regular for loops, statement sequencing), into which a statement can be
plugged. -/
inductive WrapCtx
  | here
  | inIfThen (condVarying : Bool) (elseBody : GoStmt) (w : WrapCtx)
  | inIfElse (condVarying : Bool) (thenBody : GoStmt) (w : WrapCtx)
  | inFor (w : WrapCtx)
  | inSeqLeft (w : WrapCtx) (s2 : GoStmt)
  | inSeqRight (s1 : GoStmt) (w : WrapCtx)

/-- Plug a statement into a non-parallel wrapper context. -/
def plugWrap : WrapCtx → GoStmt → GoStmt
  | .here, s => s
  | .inIfThen cv els w, s => .ifStmt cv (plugWrap w s) els
  | .inIfElse cv thn w, s => .ifStmt cv thn (plugWrap w s)
  | .inFor w, s => .forStmt (plugWrap w s)
  | .inSeqLeft w s2, s => .seq (plugWrap w s) s2
  | .inSeqRight s1 w, s => .seq s1 (plugWrap w s)

/-! Theorems. -/

theorem Identical_refl (t : GoType) : Identical t t = true := by
  induction t with
  | basic k => simp [Identical]
  | pointer b ih => simp [Identical, ih]
  | array l e ih => simp [Identical, ih]
  | slice e ih => simp [Identical, ih]
  | mapT k v ihk ihv => simp [Identical, ihk, ihv]
  | chan e ih => simp [Identical, ih]
  | spmd q c e ih => simp [Identical, ih]

/-- Once the mask-altered flag is set, no later statement of the walk resets
it (helper for the continue claim). -/
theorem maskAltered_persists (s : GoStmt) :
    ∀ ctxt info, info.maskAltered = true →
      ((checkStmt ctxt info s).1).maskAltered = true := by
  induction s with intro ctxt info h
  | skip => simpa [checkStmt] using h
  | brk =>
    simp only [checkStmt]
    split
    · split
      · exact h
      · split <;> exact h
    · exact h
  | cont =>
    simp only [checkStmt]
    split
    · split <;> simp [h]
    · exact h
  | ret =>
    simp only [checkStmt]
    split
    · split <;> exact h
    · exact h
  | gotoStmt => simp only [checkStmt]; split <;> exact h
  | selectStmt => simp only [checkStmt]; split <;> exact h
  | ifStmt cv t e iht ihe =>
    have key : ∀ (c1 c2 : StmtCtxt) (i : SPMDControlFlowInfo), i.maskAltered = true →
        ((checkStmt c2 (checkStmt c1 i t).1 e).1).maskAltered = true :=
      fun c1 c2 i hi => ihe c2 _ (iht c1 i hi)
    simp only [checkStmt]
    split
    · split <;> exact key _ _ _ h
    · exact key _ _ _ h
  | goForStmt body ih => simp only [checkStmt]; split <;> [exact h; exact h]
  | forStmt body ih => simp only [checkStmt]; exact ih _ _ h
  | seq s1 s2 ih1 ih2 => simp only [checkStmt]; exact ih2 _ _ (ih1 _ _ h)

/-- A `go for` plugged anywhere into a non-parallel wrapper inside an SPMD
context is reported as nested (helper for the nesting claim). -/
theorem nestedGoFor_mem (w : WrapCtx) :
    ∀ ctxt info body, ctxt.inSPMDFor = true →
      StmtDiag.invalidNestedSPMDFor ∈
        (checkStmt ctxt info (plugWrap w (.goForStmt body))).2 := by
  induction w with intro ctxt info body h
  | here => simp [plugWrap, checkStmt, h]
  | inIfThen cv els w ih =>
    simp only [plugWrap, checkStmt, h, if_true]
    refine List.mem_append_left _ (ih _ _ _ ?_)
    repeat' split
    all_goals simp [h]
  | inIfElse cv thn w ih =>
    simp only [plugWrap, checkStmt, h, if_true]
    refine List.mem_append_right _ (ih _ _ _ ?_)
    repeat' split
    all_goals simp [h]
  | inFor w ih =>
    simp only [plugWrap, checkStmt]
    exact ih _ _ _ h
  | inSeqLeft w s2 ih =>
    simp only [plugWrap, checkStmt]
    exact List.mem_append_left _ (ih _ _ _ h)
  | inSeqRight s1 w ih =>
    simp only [plugWrap, checkStmt]
    exact List.mem_append_right _ (ih _ _ _ h)

/-- C1 counterexample: at varyingDepth 1 with the mask altered, both the
break and the return check report the mask-alteration diagnostic variant,
not the varying-condition variant the claim predicts for that cell. -/
theorem break_return_matrix_counterexample :
    validateSPMDBranchBreak ⟨1, true⟩ = some .afterMaskAlteration ∧
    validateSPMDReturn ⟨1, true⟩ = some .afterMaskAlteration ∧
    some BranchDiagVariant.afterMaskAlteration ≠
      some BranchDiagVariant.underVaryingCondition := by
  refine ⟨by decide, by decide, by decide⟩

/-- C1 (amended): the break/return legality matrix over
(varyingDepth, maskAltered): (0,false) accepted; (0,true) rejected with the
mask-alteration variant; (>0,false) rejected with the varying-condition
variant; (>0,true) rejected with the mask-alteration variant, since the mask
check takes precedence. -/
theorem break_return_legality_matrix (d : Int) (m : Bool) :
    (d = 0 → m = false →
      validateSPMDBranchBreak ⟨d, m⟩ = none ∧ validateSPMDReturn ⟨d, m⟩ = none) ∧
    (d = 0 → m = true →
      validateSPMDBranchBreak ⟨d, m⟩ = some .afterMaskAlteration ∧
      validateSPMDReturn ⟨d, m⟩ = some .afterMaskAlteration) ∧
    (0 < d → m = false →
      validateSPMDBranchBreak ⟨d, m⟩ = some .underVaryingCondition ∧
      validateSPMDReturn ⟨d, m⟩ = some .underVaryingCondition) ∧
    (0 < d → m = true →
      validateSPMDBranchBreak ⟨d, m⟩ = some .afterMaskAlteration ∧
      validateSPMDReturn ⟨d, m⟩ = some .afterMaskAlteration) := by
  refine ⟨?_, ?_, ?_, ?_⟩ <;> intro h1 h2 <;> subst h2 <;>
    simp_all [validateSPMDBranchBreak, validateSPMDReturn]

/-- C1 witness: the matrix theorem applied at the four concrete cells
(0,false), (0,true), (1,false), (1,true). -/
theorem break_return_legality_matrix_witness :
    (validateSPMDBranchBreak ⟨0, false⟩ = none ∧ validateSPMDReturn ⟨0, false⟩ = none) ∧
    (validateSPMDBranchBreak ⟨0, true⟩ = some .afterMaskAlteration ∧
      validateSPMDReturn ⟨0, true⟩ = some .afterMaskAlteration) ∧
    (validateSPMDBranchBreak ⟨1, false⟩ = some .underVaryingCondition ∧
      validateSPMDReturn ⟨1, false⟩ = some .underVaryingCondition) ∧
    (validateSPMDBranchBreak ⟨1, true⟩ = some .afterMaskAlteration ∧
      validateSPMDReturn ⟨1, true⟩ = some .afterMaskAlteration) :=
  ⟨(break_return_legality_matrix 0 false).1 rfl rfl,
   (break_return_legality_matrix 0 true).2.1 rfl rfl,
   (break_return_legality_matrix 1 false).2.2.1 (by decide) rfl,
   (break_return_legality_matrix 1 true).2.2.2 (by decide) rfl⟩

/-- C3 counterexample: a constrained varying source (constraint 4) assigns
into a universally-constrained varying target (constraint 0) AND vice versa:
CanAssignSPMD ignores the constraint between two varying types, so the
direction the claim says is rejected is in fact accepted. -/
theorem constrained_assign_counterexample :
    ¬ (CanAssignSPMD (NewVaryingConstrained (.basic .int) 4)
        (NewVaryingConstrained (.basic .int) 0) = false) := by
  decide

/-- C3 (amended): the qualifier-lattice facts for every element type E:
uniform broadcasts into varying, varying never narrows into uniform,
identity of equal constrained varying types holds, constrained assigns into
universal, and (amended) constrained-into-universal in the other direction
is also accepted, because CanAssignSPMD never compares constraints. -/
theorem qualifier_lattice_amended (E : GoType) :
    CanAssignSPMD (NewVarying E) (NewUniform E) = true ∧
    CanAssignSPMD (NewUniform E) (NewVarying E) = false ∧
    Identical (NewVaryingConstrained E 4) (NewVaryingConstrained E 4) = true ∧
    CanAssignSPMD (NewVaryingConstrained E 0) (NewVaryingConstrained E 4) = true ∧
    CanAssignSPMD (NewVaryingConstrained E 4) (NewVaryingConstrained E 0) = true := by
  refine ⟨?_, ?_, ?_, ?_, ?_⟩ <;>
    simp [CanAssignSPMD, NewVarying, NewUniform, NewVaryingConstrained, isSPMDType,
      isUniformType, isVaryingType, UnderlyingType, Identical, Identical_refl]

/-- C4 counterexample: an unconstrained varying int64 function parameter is
rejected by the capacity check (capacity 8 x 4 = 32 exceeds the 16-byte
per-parameter limit), where the claim predicts it passes. -/
theorem varying_int64_param_counterexample :
    checkSPMDFunctionCapacity [NewVarying (.basic .int64)] =
      some .paramCapacityExceeded ∧
    ¬ (checkSPMDFunctionCapacity [NewVarying (.basic .int64)] = none) := by
  refine ⟨by decide, by decide⟩

/-- C4 (amended): with the 16-byte register, a varying int32 parameter
(capacity 4 x 4 = 16) passes; a varying int64 parameter has capacity
8 x 4 = 32 — the checker uses the fixed default lane count 4, not
registerWidth/elementSize — and is rejected; a constrained varying int32
with constraint 32 (capacity 128) is rejected at the 64-byte constrained
ceiling during type construction, while constraint 16 (capacity 64) still
passes. -/
theorem capacity_boundary_amended :
    calculateVaryingTypeCapacity (-1) (.basic .int32) = 16 ∧
    checkSPMDFunctionCapacity [NewVarying (.basic .int32)] = none ∧
    calculateVaryingTypeCapacity (-1) (.basic .int64) = 32 ∧
    checkSPMDFunctionCapacity [NewVarying (.basic .int64)] =
      some .paramCapacityExceeded ∧
    processLanesVaryingType (.basic .int32) (some 32) =
      .error .constrainedCapacityExceeded ∧
    processLanesVaryingType (.basic .int32) (some 16) =
      .ok (NewVaryingConstrained (.basic .int32) 16) := by
  refine ⟨by decide, by decide, by decide, by decide, by rfl, by rfl⟩

/-- C9: in the short-declaration form of an SPMD range statement, the key
variable is typed varying int and the value variable is typed varying T for
T the checker's type of the ranged expression — in particular for a slice
container the value is varying over the whole slice type, not over its
element type. -/
theorem spmd_range_var_typing (T : GoType) :
    spmdRangeIterVarTypes T true true =
      (some (NewVarying (.basic .int)), some (NewVarying T)) ∧
    spmdRangeIterVarTypes (GoType.slice T) true true =
      (some (NewVarying (.basic .int)), some (NewVarying (GoType.slice T))) := by
  refine ⟨rfl, rfl⟩

/-- C10: the region-level capacity check never fires: the computed body
capacity is the constant 0, which never exceeds the 16-byte limit. -/
theorem gofor_capacity_never_fails (body : GoStmt) :
    calculateGoForCapacity body = 0 ∧ checkGoForCapacity body = none := by
  refine ⟨rfl, rfl⟩

/-- C2: a continue statement inside a `go for` region never produces a
diagnostic, at every varying depth and mask state; it sets the mask-altered
flag exactly when the varying depth is positive, and once the flag is set no
later statement of the region's analysis (any statement s, including ones
that bring the depth back to 0) resets it. -/
theorem continue_always_legal (ctxt : StmtCtxt) (info : SPMDControlFlowInfo) (s : GoStmt) :
    (ctxt.inSPMDFor = true → ctxt.continueOk = true →
      checkStmt ctxt info .cont =
        ((if info.varyingDepth > 0 then { info with maskAltered := true } else info), [])) ∧
    (info.maskAltered = true → ((checkStmt ctxt info s).1).maskAltered = true) := by
  refine ⟨fun h1 h2 => ?_, fun h => maskAltered_persists s ctxt info h⟩
  simp [checkStmt, h1, h2]

/-- C2 witness: the theorem applied inside a region at varying depth 1 with
the mask not yet altered — the continue emits no diagnostic and sets the
flag — and the persistence conjunct applied after the depth is back at 0. -/
theorem continue_always_legal_witness :
    checkStmt ⟨true, false, true⟩ ⟨1, false⟩ .cont = (⟨1, true⟩, []) ∧
    ((checkStmt ⟨true, false, true⟩ ⟨0, true⟩ (.ifStmt false .skip .skip)).1).maskAltered
      = true := by
  refine ⟨?_, ?_⟩
  · have h := (continue_always_legal ⟨true, false, true⟩ ⟨1, false⟩ .skip).1 rfl rfl
    simpa using h
  · exact (continue_always_legal ⟨true, false, true⟩ ⟨0, true⟩
      (.ifStmt false .skip .skip)).2 rfl

/-- C5: a `go for` statement met in SPMD context is rejected with the
nested-parallel-region diagnostic for every varying depth and mask state,
its body left unprocessed; and the diagnostic is reported for a nested
`go for` wrapped in any chain of non-parallel constructs (conditionals,
regular for loops, sequencing). -/
theorem nested_gofor_always_rejected (ctxt : StmtCtxt) (info : SPMDControlFlowInfo)
    (body : GoStmt) (w : WrapCtx) :
    (ctxt.inSPMDFor = true →
      checkStmt ctxt info (.goForStmt body) = (info, [.invalidNestedSPMDFor])) ∧
    (ctxt.inSPMDFor = true →
      StmtDiag.invalidNestedSPMDFor ∈
        (checkStmt ctxt info (plugWrap w (.goForStmt body))).2) := by
  refine ⟨fun h => by simp [checkStmt, h], fun h => nestedGoFor_mem w ctxt info body h⟩

/-- C5 witness: the theorem applied at depth 2 with the mask altered, with
the nested `go for` buried under a uniform conditional inside a regular for
loop. -/
theorem nested_gofor_witness :
    checkStmt ⟨true, false, true⟩ ⟨2, true⟩ (.goForStmt .skip) =
      (⟨2, true⟩, [.invalidNestedSPMDFor]) ∧
    StmtDiag.invalidNestedSPMDFor ∈
      (checkStmt ⟨true, false, true⟩ ⟨2, true⟩
        (plugWrap (.inFor (.inIfThen false .skip .here)) (.goForStmt .skip))).2 := by
  refine ⟨?_, ?_⟩
  · exact (nested_gofor_always_rejected ⟨true, false, true⟩ ⟨2, true⟩ .skip .here).1 rfl
  · exact (nested_gofor_always_rejected ⟨true, false, true⟩ ⟨2, true⟩ .skip
      (.inFor (.inIfThen false .skip .here))).2 rfl

/-- C6: an exported (ASCII-capitalized) function outside the lanes and
reduce packages is rejected when it declares a varying parameter, and is
rejected when it returns a varying type; inside the lanes or reduce package
the same signatures pass (provided the body does not itself contain a
`go for`, which is rejected for varying-parameter functions everywhere). -/
theorem exported_varying_function_rules (fd : FuncDeclModel) :
    (isCapitalizedName fd.name = true →
      (fd.pkgName == "lanes" || fd.pkgName == "reduce") = false →
      hasSPMDParameters fd.paramTypes = true →
      FuncDiag.publicVaryingParams ∈ validateSPMDFunctionSignature fd) ∧
    (isCapitalizedName fd.name = true →
      (fd.pkgName == "lanes" || fd.pkgName == "reduce") = false →
      fd.resultTypes.any isVaryingType = true →
      validateSPMDFunctionSignature fd ≠ []) ∧
    ((fd.pkgName == "lanes" || fd.pkgName == "reduce") = true →
      hasGoForInSPMDFunction fd.body = false →
      validateSPMDFunctionSignature fd = []) := by
  refine ⟨?_, ?_, ?_⟩
  · intro hc hex hp
    simp [validateSPMDFunctionSignature, hc, hex, hp]
  · intro hc hex hr
    by_cases hp : hasSPMDParameters fd.paramTypes = true
    · simp [validateSPMDFunctionSignature, hc, hex, hp]
    · have hp' : hasSPMDParameters fd.paramTypes = false := by
        simpa using hp
      simp [validateSPMDFunctionSignature, hc, hex, hp', hr]
  · intro hex hb
    simp [validateSPMDFunctionSignature, hex, hb]

/-- C6 witness: the theorem applied to the exported function Foo with a
varying int parameter in package main, to Foo returning varying int in
package main, and to Foo with both in package lanes. -/
theorem exported_varying_function_rules_witness :
    FuncDiag.publicVaryingParams ∈ validateSPMDFunctionSignature
      ⟨"Foo", "main", [NewVarying (.basic .int)], [], none⟩ ∧
    validateSPMDFunctionSignature
      ⟨"Foo", "main", [], [NewVarying (.basic .int)], none⟩ ≠ [] ∧
    validateSPMDFunctionSignature
      ⟨"Foo", "lanes", [NewVarying (.basic .int)], [NewVarying (.basic .int)], none⟩
      = [] := by
  refine ⟨?_, ?_, ?_⟩
  · exact (exported_varying_function_rules
      ⟨"Foo", "main", [NewVarying (.basic .int)], [], none⟩).1 (by decide) (by decide)
      (by decide)
  · exact (exported_varying_function_rules
      ⟨"Foo", "main", [], [NewVarying (.basic .int)], none⟩).2.1 (by decide) (by decide)
      (by decide)
  · exact (exported_varying_function_rules
      ⟨"Foo", "lanes", [NewVarying (.basic .int)], [NewVarying (.basic .int)], none⟩).2.2
      (by decide) (by decide)

/-- Every varying type is an SPMD node with the varying qualifier, and its
underlying type is its element (helper for the operand-propagation claim). -/
theorem varying_shape {t : GoType} (h : isVaryingType t = true) :
    ∃ c e, t = .spmd .varying c e ∧ UnderlyingType t = e := by
  cases t with
  | spmd q c e =>
    cases q with
    | varying => exact ⟨c, e, rfl, rfl⟩
    | uniform => simp [isVaryingType] at h
  | basic k => simp [isVaryingType] at h
  | pointer b => simp [isVaryingType] at h
  | array l e => simp [isVaryingType] at h
  | slice e => simp [isVaryingType] at h
  | mapT k v => simp [isVaryingType] at h
  | chan e => simp [isVaryingType] at h

/-- C7: for an arithmetic/bitwise/shift operation with at least one varying
operand whose (well-typed, hence common) element type is E, the classifier
produces the varying result type over E; for a comparison with at least one
varying operand it produces varying bool. -/
theorem varying_operand_propagation (op : Operator) (xty yty E : GoType) :
    (isArithmetic op = true →
      (isVaryingType xty || isVaryingType yty) = true →
      UnderlyingType xty = E → UnderlyingType yty = E →
      handleSPMDBinaryExpr xty yty op = some (NewVarying E)) ∧
    ((isVaryingType xty || isVaryingType yty) = true →
      handleSPMDComparison xty yty = some (NewVarying (.basic .bool))) := by
  constructor
  · intro hop hv hx hy
    by_cases hxv : isVaryingType xty = true
    · obtain ⟨c, e, rfl, hu⟩ := varying_shape hxv
      rw [hu] at hx
      subst hx
      simp [handleSPMDBinaryExpr, isVaryingType, spmdElem, hop]
    · have hxv' : isVaryingType xty = false := by simpa using hxv
      have hyv : isVaryingType yty = true := by simpa [hxv'] using hv
      obtain ⟨c, e, rfl, hu⟩ := varying_shape hyv
      rw [hu] at hy
      subst hy
      cases xty with
      | spmd q c2 e2 =>
        cases q with
        | varying => simp [isVaryingType] at hxv'
        | uniform => simp [handleSPMDBinaryExpr, isVaryingType, spmdElem, hop]
      | basic k => simp [handleSPMDBinaryExpr, isVaryingType, spmdElem, hop]
      | pointer b => simp [handleSPMDBinaryExpr, isVaryingType, spmdElem, hop]
      | array l e2 => simp [handleSPMDBinaryExpr, isVaryingType, spmdElem, hop]
      | slice e2 => simp [handleSPMDBinaryExpr, isVaryingType, spmdElem, hop]
      | mapT k v => simp [handleSPMDBinaryExpr, isVaryingType, spmdElem, hop]
      | chan e2 => simp [handleSPMDBinaryExpr, isVaryingType, spmdElem, hop]
  · intro hv
    have : (!isVaryingType xty && !isVaryingType yty) = false := by
      cases hx : isVaryingType xty <;> cases hy : isVaryingType yty <;>
        simp_all
    simp [handleSPMDComparison, this]

/-- C7 witness: the theorem applied to varying int32 + uniform int32 and to
the comparison of the same operands. -/
theorem varying_operand_propagation_witness :
    handleSPMDBinaryExpr (NewVarying (.basic .int32)) (.basic .int32) .add =
      some (NewVarying (.basic .int32)) ∧
    handleSPMDComparison (NewVarying (.basic .int32)) (.basic .int32) =
      some (NewVarying (.basic .bool)) := by
  refine ⟨?_, ?_⟩
  · exact (varying_operand_propagation .add (NewVarying (.basic .int32))
      (.basic .int32) (.basic .int32)).1 (by decide) (by decide) rfl rfl
  · exact (varying_operand_propagation .add (NewVarying (.basic .int32))
      (.basic .int32) (.basic .int32)).2 (by decide)

/-- C8 counterexample: taking the address of an array element indexed by the
varying multiplication i*2 is rejected with the potential-out-of-bounds
diagnostic, where the claim predicts acceptance for every possibly-varying
index. -/
theorem varying_index_address_counterexample :
    validateSPMDAddressOperation
      (.index (.name (.array 16 (.basic .int)))
        (.oper .mul (.name (.spmd .varying (-1) (.basic .int))) (.lit (.basic .int))
          (.spmd .varying (-1) (.basic .int)))
        (.spmd .varying (-1) (.basic .int))) =
      ⟨true, false, some .potentialOutOfBoundsVaryingPointer⟩ ∧
    some AddrMsg.potentialOutOfBoundsVaryingPointer ≠ none := by
  refine ⟨by decide, by decide⟩

/-- C8 (amended): the address of a varying variable referenced directly by
name is rejected; the address of an indexed element whose index is a plain
(possibly varying) variable reference is accepted with no diagnostic; but an
index that is a multiplication with a varying operand is rejected as a
potential out-of-bounds varying-pointer access. -/
theorem address_of_varying_rules (t rty ity : GoType) (base l r : SynExpr) :
    (isVaryingType t = true →
      validateSPMDAddressOperation (.name t) =
        ⟨true, false, some .cannotTakeAddressOfVaryingVariable⟩) ∧
    validateSPMDAddressOperation (.index base (.name ity) rty) =
      ⟨false, false, none⟩ ∧
    ((isVaryingType l.ty || isVaryingType r.ty) = true →
      validateSPMDAddressOperation (.index base (.oper .mul l r ity) rty) =
        ⟨true, false, some .potentialOutOfBoundsVaryingPointer⟩) := by
  refine ⟨fun h => ?_, ?_, fun h => ?_⟩
  · simp [validateSPMDAddressOperation, SynExpr.ty, h]
  · simp only [validateSPMDAddressOperation, SynExpr.ty]
    split <;> rfl
  · cases l <;> cases r <;> simp_all [validateSPMDAddressOperation, SynExpr.ty]

/-- C8 witness: the theorem applied to a varying int variable, to an array
element indexed by a varying variable (the scatter/gather pattern, accepted),
and to the varying multiplication index (rejected). -/
theorem address_of_varying_rules_witness :
    validateSPMDAddressOperation (.name (NewVarying (.basic .int))) =
      ⟨true, false, some .cannotTakeAddressOfVaryingVariable⟩ ∧
    validateSPMDAddressOperation
      (.index (.name (.array 16 (.basic .int))) (.name (NewVarying (.basic .int)))
        (NewVarying (.basic .int))) = ⟨false, false, none⟩ ∧
    validateSPMDAddressOperation
      (.index (.name (.array 16 (.basic .int)))
        (.oper .mul (.name (NewVarying (.basic .int))) (.lit (.basic .int))
          (NewVarying (.basic .int)))
        (NewVarying (.basic .int))) =
      ⟨true, false, some .potentialOutOfBoundsVaryingPointer⟩ := by
  refine ⟨?_, ?_, ?_⟩
  · exact (address_of_varying_rules (NewVarying (.basic .int)) (NewVarying (.basic .int))
      (NewVarying (.basic .int)) (.name (.array 16 (.basic .int)))
      (.name (NewVarying (.basic .int))) (.lit (.basic .int))).1 (by decide)
  · exact (address_of_varying_rules (NewVarying (.basic .int)) (NewVarying (.basic .int))
      (NewVarying (.basic .int)) (.name (.array 16 (.basic .int)))
      (.name (NewVarying (.basic .int))) (.lit (.basic .int))).2.1
  · exact (address_of_varying_rules (NewVarying (.basic .int)) (NewVarying (.basic .int))
      (NewVarying (.basic .int)) (.name (.array 16 (.basic .int)))
      (.name (NewVarying (.basic .int))) (.lit (.basic .int))).2.2 (by decide)

end GoSpmd
